import Mathlib

/-!
# Shallow embedding of the Book Collection API

This file embeds `src/lecture_5/book_api/main.py` (a FastAPI + SQLAlchemy +
SQLite CRUD service over a single `books` table) as pure Lean functions and
proves the specified properties about them.

Modelling choices, each traced to the source or to the documented semantics of
the libraries the source uses:

* A `Store` is the `books` table, kept as a list of rows in rowid order (the
  order a SQLite full table scan returns, which is the order both the
  unordered `GET /books/` query and `ORDER BY id` produce on reachable
  states).
* Id assignment follows SQLite's rowid rule for `INTEGER PRIMARY KEY`
  columns: a freshly inserted row receives one plus the largest rowid
  currently in use (1 for an empty table).  In particular an id can be reused
  after the row holding the largest id is deleted.
* Pydantic request models: `BookCreate` requires `title`/`author` to be
  present strings (no emptiness constraint in the source) and `year` an
  optional int.  `BookUpdate` distinguishes an absent field from an explicit
  JSON `null` (`model_dump(exclude_unset=True)`), hence the
  `Option (Option _)` fields; its `Field` constraints (`min_length=1`,
  `ge=0`, `le=2100`) apply only to non-null supplied values, exactly as
  pydantic v2 validates `Optional` constrained fields.
* Setting `title` or `author` to `null` passes request validation but
  violates the `NOT NULL` column constraints at commit time; that surfaces
  as an integrity error (HTTP 500) with the transaction rolled back, which
  we model as `BookError.integrity` with the store unchanged.
* The search endpoint tests its query parameters with Python truthiness
  (`if title:` / `if year:`), so an empty string or the integer 0 behaves as
  an absent filter.
* SQLAlchemy's `contains` produces `lower(col) LIKE '%' || pat || '%'`
  without escaping, so LIKE wildcards (`%`, `_`) inside a supplied pattern
  keep their special meaning; `likeMatch` models SQLite LIKE matching.
* Case folding.  SQLite `lower()` folds only ASCII A-Z and fixes every
  other character, which is exactly `Char.toLower`, so the field side of
  the emitted filter is modelled faithfully for all inputs.  The pattern,
  however, is lowered by Python `str.lower` (full Unicode), which agrees
  with `Char.toLower` precisely on ASCII patterns; and SQLite LIKE's own
  built-in case blindness also covers only ASCII (and is absorbed here by
  the pre-lowering of both sides).  The search-semantics theorems
  therefore restrict supplied patterns and stored title/author text to
  ASCII (`asciiString`), the domain on which all of these folding notions
  provably coincide.  Outside ASCII the code's matching is not
  case-insensitive at all — a pattern "Ü" becomes "ü" via Python while a
  stored "Ü" is untouched by SQL `lower()`, so `LIKE` misses it — which
  is why the amended search claim carves that territory out instead of
  asserting the spec's case-insensitive reading there.
-/

namespace BookApi

/-- A row of the `books` table: `id INTEGER PRIMARY KEY`,
`title`/`author NOT NULL`, `year` nullable (class `Book` in the source). -/
structure Book where
  id : Int
  title : String
  author : String
  year : Option Int
deriving DecidableEq

/-- The persistent store: the `books` table in rowid order. -/
structure Store where
  books : List Book
deriving DecidableEq

/-- The error outcomes the service surfaces: 404, 422, and the 500 raised
when a commit violates a column constraint. -/
inductive BookError where
  | notFound
  | validation
  | integrity
deriving DecidableEq

/-- Request body of `POST /books/` (pydantic `BookCreate`): `title` and
`author` are required strings with no further constraint, `year` optional. -/
structure BookCreate where
  title : String
  author : String
  year : Option Int
deriving DecidableEq

/-- Request body of the PUT update endpoint (pydantic `BookUpdate`).  The outer
`Option` is field presence (pydantic "unset"), the inner one JSON null:
`none` = field absent, `some none` = explicit null, `some (some v)` = value. -/
structure BookUpdate where
  title : Option (Option String)
  author : Option (Option String)
  year : Option (Option Int)
deriving DecidableEq

/-- Largest id in use (0 for an empty table); SQLite's basis for assigning
the next rowid. -/
def maxId (l : List Book) : Int := l.foldr (fun b m => max b.id m) 0

/-- The rowid SQLite assigns to the next inserted row: one larger than the
largest rowid currently in use. -/
def nextId (s : Store) : Int := maxId s.books + 1

/-- Handler `create_book`: insert a new row built from the request body, with the
store-assigned id, and return it. -/
def createBook (s : Store) (c : BookCreate) : Store × Book :=
  let b : Book := ⟨nextId s, c.title, c.author, c.year⟩
  (⟨s.books ++ [b]⟩, b)

/-- Handler `get_books`: `db.query(Book).offset(skip).limit(limit).all()` — the
table in scan order, after `skip` rows, at most `limit` of them. -/
def getBooks (s : Store) (skip limit : Nat) : List Book :=
  (s.books.drop skip).take limit

/-- Remove the first row matching `p` (the row `first()` returned). -/
def eraseFirst (p : Book → Bool) : List Book → List Book
  | [] => []
  | x :: xs => if p x then xs else x :: eraseFirst p xs

/-- Replace the first row matching `p` (the ORM object `first()` returned
and the handler mutated) with `b'`. -/
def setFirst (p : Book → Bool) (b' : Book) : List Book → List Book
  | [] => []
  | x :: xs => if p x then b' :: xs else x :: setFirst p b' xs

/-- Handler `delete_book`: look the row up by id; 404 when absent, otherwise delete
it.  On failure the store is untouched. -/
def deleteBook (s : Store) (id : Int) : Store × Except BookError Unit :=
  match s.books.find? (fun b => b.id == id) with
  | none => (s, Except.error BookError.notFound)
  | some _ => (⟨eraseFirst (fun b => b.id == id) s.books⟩, Except.ok ())

/-- Pydantic validation of a `BookUpdate` body: a supplied non-null `title`
or `author` must have length ≥ 1, a supplied non-null `year` must lie in
[0, 2100]; absent fields and explicit nulls pass. -/
def validUpdate (u : BookUpdate) : Bool :=
  (match u.title with | some (some t) => decide (1 ≤ t.length) | _ => true) &&
  (match u.author with | some (some a) => decide (1 ≤ a.length) | _ => true) &&
  (match u.year with
   | some (some y) => decide (0 ≤ y) && decide (y ≤ 2100)
   | _ => true)

/-- The `setattr` loop of `update_book`: overwrite exactly the fields
present in `model_dump(exclude_unset=True)`.  (The null cases for `title`
and `author` never commit — see `updateBook` — so those branches keep the
old value only to stay total.) -/
def applyUpdate (b : Book) (u : BookUpdate) : Book :=
  { b with
    title := match u.title with | some (some t) => t | _ => b.title
    author := match u.author with | some (some a) => a | _ => b.author
    year := match u.year with | some y => y | none => b.year }

/-- Handler `update_book`: request validation (pydantic, before the handler runs),
then the id lookup (404), then the attribute patch and commit; committing a
null `title`/`author` violates `NOT NULL` and rolls back.  Every failure
leaves the store unchanged. -/
def updateBook (s : Store) (id : Int) (u : BookUpdate) :
    Store × Except BookError Book :=
  if validUpdate u then
    match s.books.find? (fun b => b.id == id) with
    | none => (s, Except.error BookError.notFound)
    | some b =>
      if u.title == some none || u.author == some none then
        (s, Except.error BookError.integrity)
      else
        let b' := applyUpdate b u
        (⟨setFirst (fun x => x.id == id) b' s.books⟩, Except.ok b')
  else (s, Except.error BookError.validation)

/-- SQLite `LIKE` matching on character lists: `%` matches any sequence
(try every suffix), `_` any single character, any other pattern character
itself. -/
def likeMatch : List Char → List Char → Bool
  | [], s => s.isEmpty
  | p :: ps, s =>
    if p = '%' then s.tails.any (fun t => likeMatch ps t)
    else
      match s with
      | [] => false
      | c :: s' => (p == '_' || p == c) && likeMatch ps s'

/-- The filter SQLAlchemy emits for
`func.lower(col).contains(pat.lower())`:
`lower(col) LIKE '%' || lower(pat) || '%'` (no wildcard escaping).
`Char.toLower` on the field side is exactly SQLite `lower()` (ASCII A-Z
only, every other character fixed), faithful for all stored text; on the
pattern side it stands for Python `str.lower`, with which it agrees
precisely on the ASCII patterns the search theorems quantify over. -/
def sqlContains (field pat : String) : Bool :=
  likeMatch (('%' :: pat.data.map Char.toLower) ++ ['%'])
    (field.data.map Char.toLower)

/-- Case-insensitive substring test — the matching the spec describes for
`title`/`author` search filters — with ASCII case folding, which agrees
with full-Unicode case-insensitivity exactly on the ASCII patterns and
fields the search theorems quantify over. -/
def containsCI (field pat : String) : Bool :=
  (field.data.map Char.toLower).tails.any
    (fun t => (pat.data.map Char.toLower).isPrefixOf t)

/-- A pattern whose lowering contains no LIKE wildcard character, i.e. a
pattern on which the emitted LIKE really is a substring test. -/
def likeSafe (s : String) : Bool :=
  (s.data.map Char.toLower).all (fun c => !(c == '%') && !(c == '_'))

/-- ASCII-only text: the domain on which SQLite `lower()`, Python
`str.lower`, SQLite LIKE's built-in ASCII case blindness and
`Char.toLower` all agree, so matching is modelled faithfully. -/
def asciiString (s : String) : Bool :=
  s.data.all (fun c => decide (c.toNat < 128))

/-- Source line `if title: query = query.filter(func.lower(Book.title).contains(title.lower()))`
— Python truthiness: `None` and `""` both skip the filter. -/
def applyTitleFilter (t? : Option String) (q : List Book) : List Book :=
  match t? with
  | none => q
  | some t => if t = "" then q else q.filter (fun b => sqlContains b.title t)

/-- The author filter, identical to the title one but against `author`. -/
def applyAuthorFilter (a? : Option String) (q : List Book) : List Book :=
  match a? with
  | none => q
  | some a => if a = "" then q else q.filter (fun b => sqlContains b.author a)

/-- Source line `if year: query = query.filter(Book.year == year)` — truthiness again:
`None` and `0` both skip the filter; a `NULL` stored year never equals an
integer, so rows without a year are excluded. -/
def applyYearFilter (y? : Option Int) (q : List Book) : List Book :=
  match y? with
  | none => q
  | some y => if y = 0 then q else q.filter (fun b => b.year == some y)

/-- Clause `order_by(Book.id)`: stable sort of the result rows by ascending id. -/
def sortById (l : List Book) : List Book :=
  l.insertionSort (fun a b => a.id ≤ b.id)

/-- Handler `search_books`: apply the three optional filters in source order, then
`order_by(Book.id).offset(skip).limit(limit)`. -/
def searchBooks (s : Store) (title author : Option String) (year : Option Int)
    (skip limit : Nat) : List Book :=
  let q := applyYearFilter year (applyAuthorFilter author
    (applyTitleFilter title s.books))
  ((sortById q).drop skip).take limit

/-- Spec-side title predicate: a supplied filter is a case-insensitive
substring match, an absent one matches everything. -/
def titleMatchSpec (t? : Option String) (b : Book) : Bool :=
  match t? with
  | none => true
  | some t => containsCI b.title t

/-- Spec-side author predicate. -/
def authorMatchSpec (a? : Option String) (b : Book) : Bool :=
  match a? with
  | none => true
  | some a => containsCI b.author a

/-- Spec-side year predicate: a supplied filter is an exact match. -/
def yearMatchSpec (y? : Option Int) (b : Book) : Bool :=
  match y? with
  | none => true
  | some y => b.year == some y

/-- Conjunction of all supplied filters (the spec's AND semantics). -/
def specMatches (t? a? : Option String) (y? : Option Int) (b : Book) : Bool :=
  titleMatchSpec t? b && authorMatchSpec a? b && yearMatchSpec y? b

/-- Search as the spec words it: the stored books satisfying every supplied
filter, ordered by id ascending, then paginated by skip/limit. -/
def specSearch (s : Store) (title author : Option String) (year : Option Int)
    (skip limit : Nat) : List Book :=
  ((sortById (s.books.filter (specMatches title author year))).drop skip).take limit

/-- One client operation against the service. -/
inductive Op where
  | create (c : BookCreate)
  | update (id : Int) (u : BookUpdate)
  | delete (id : Int)

/-- Whether an operation is a Create. -/
def Op.isCreate : Op → Bool
  | .create _ => true
  | _ => false

/-- The store after one operation (failed operations leave it unchanged). -/
def applyOp (s : Store) : Op → Store
  | .create c => (createBook s c).1
  | .update id u => (updateBook s id u).1
  | .delete id => (deleteBook s id).1

/-- The store after a sequence of operations. -/
def runOps (s : Store) (ops : List Op) : Store := ops.foldl applyOp s

/-- Stores the running service can be in: everything reachable from the
empty table by client operations. -/
def Reachable (s : Store) : Prop := ∃ ops : List Op, runOps ⟨[]⟩ ops = s

/-- The store invariant: row ids are strictly increasing in scan order
(hence pairwise distinct). -/
def StoreInv (s : Store) : Prop := (s.books.map Book.id).Pairwise (· < ·)

/-! ## Helper lemmas -/

theorem le_maxId : ∀ {l : List Book} {b : Book}, b ∈ l → b.id ≤ maxId l := by
  intro l
  induction l with
  | nil => intro b hb; cases hb
  | cons x xs ih =>
    intro b hb
    rcases List.mem_cons.mp hb with h | h
    · subst h
      show b.id ≤ max b.id (maxId xs)
      exact le_max_left _ _
    · show b.id ≤ max x.id (maxId xs)
      exact le_trans (ih h) (le_max_right _ _)

theorem eraseFirst_sublist (p : Book → Bool) :
    ∀ l : List Book, List.Sublist (eraseFirst p l) l := by
  intro l
  induction l with
  | nil => exact List.Sublist.refl _
  | cons x xs ih =>
    by_cases h : p x
    · rw [show eraseFirst p (x :: xs) = xs by simp [eraseFirst, h]]
      exact List.sublist_cons_self x xs
    · simpa [eraseFirst, h] using ih.cons₂ x

theorem map_id_setFirst (p : Book → Bool) (b' : Book)
    (h : ∀ x : Book, p x = true → b'.id = x.id) :
    ∀ l : List Book, (setFirst p b' l).map Book.id = l.map Book.id := by
  intro l
  induction l with
  | nil => rfl
  | cons x xs ih =>
    by_cases hx : p x
    · simp [setFirst, hx, h x hx]
    · simp [setFirst, hx, ih]

/-- Reduction of `updateBook` on a present id with a valid, null-free body. -/
theorem updateBook_found (s : Store) (id : Int) (u : BookUpdate) (b : Book)
    (hf : s.books.find? (fun x => x.id == id) = some b)
    (hv : validUpdate u = true)
    (hn : (u.title == some none || u.author == some none) = false) :
    updateBook s id u =
      (⟨setFirst (fun x => x.id == id) (applyUpdate b u) s.books⟩,
       Except.ok (applyUpdate b u)) := by
  unfold updateBook
  rw [if_pos hv]
  split
  · next heq => rw [hf] at heq; cases heq
  · next b2 heq =>
    rw [hf] at heq
    injection heq with heq
    subst heq
    rw [if_neg (by simp [hn])]

/-- Reduction of `updateBook` on a present id when the body sets `title`
or `author` to null: the commit violates `NOT NULL` and rolls back. -/
theorem updateBook_found_null (s : Store) (id : Int) (u : BookUpdate) (b : Book)
    (hf : s.books.find? (fun x => x.id == id) = some b)
    (hv : validUpdate u = true)
    (hn : (u.title == some none || u.author == some none) = true) :
    updateBook s id u = (s, Except.error BookError.integrity) := by
  unfold updateBook
  rw [if_pos hv]
  split
  · next heq => rw [hf] at heq; cases heq
  · next b2 heq => rw [if_pos hn]

theorem books_updateBook_map_id (s : Store) (id : Int) (u : BookUpdate) :
    ((updateBook s id u).1).books.map Book.id = s.books.map Book.id := by
  unfold updateBook
  by_cases hv : validUpdate u = true
  · rw [if_pos hv]
    cases hf : s.books.find? (fun b => b.id == id) with
    | none => simp [hf]
    | some b =>
      simp only [hf]
      by_cases hn : (u.title == some none || u.author == some none) = true
      · rw [if_pos hn]
      · rw [if_neg hn]
        apply map_id_setFirst
        intro x hx
        have hbid : b.id = id := by simpa using List.find?_some hf
        have hxid : x.id = id := by simpa using hx
        show (applyUpdate b u).id = x.id
        show b.id = x.id
        rw [hbid, hxid]
  · rw [if_neg hv]

theorem storeInv_createBook {s : Store} (h : StoreInv s) (c : BookCreate) :
    StoreInv (createBook s c).1 := by
  unfold StoreInv createBook
  simp only [List.map_append, List.map_cons, List.map_nil]
  rw [List.pairwise_append]
  refine ⟨h, List.pairwise_singleton _ _, ?_⟩
  intro a ha b2 hb2
  have hb2' : b2 = nextId s := by simpa using hb2
  subst hb2'
  obtain ⟨x, hx, rfl⟩ := List.mem_map.mp ha
  have hle : x.id ≤ maxId s.books := le_maxId hx
  show x.id < nextId s
  unfold nextId
  omega

theorem storeInv_deleteBook {s : Store} (h : StoreInv s) (id : Int) :
    StoreInv (deleteBook s id).1 := by
  unfold deleteBook
  cases hf : s.books.find? (fun b => b.id == id) with
  | none => simpa using h
  | some b =>
    simp only [hf]
    exact h.sublist ((eraseFirst_sublist _ _).map Book.id)

theorem storeInv_applyOp {s : Store} (h : StoreInv s) (op : Op) :
    StoreInv (applyOp s op) := by
  cases op with
  | create c => exact storeInv_createBook h c
  | update id u =>
    unfold StoreInv applyOp
    rw [books_updateBook_map_id]
    exact h
  | delete id => exact storeInv_deleteBook h id

theorem storeInv_runOps :
    ∀ (ops : List Op) (s : Store), StoreInv s → StoreInv (runOps s ops) := by
  intro ops
  induction ops with
  | nil => intro s h; exact h
  | cons op ops ih => intro s h; exact ih _ (storeInv_applyOp h op)

theorem reachable_storeInv {s : Store} (h : Reachable s) : StoreInv s := by
  obtain ⟨ops, rfl⟩ := h
  exact storeInv_runOps ops _ List.Pairwise.nil

theorem sortById_eq_of_pairwise {l : List Book}
    (h : (l.map Book.id).Pairwise (· < ·)) : sortById l = l := by
  apply List.Sorted.insertionSort_eq
  exact (List.pairwise_map.mp h).imp (fun hab => le_of_lt hab)

theorem not_mem_map_id_eraseFirst (id : Int) :
    ∀ l : List Book, (l.map Book.id).Pairwise (· ≠ ·) →
      id ∉ (eraseFirst (fun b => b.id == id) l).map Book.id := by
  intro l
  induction l with
  | nil => intro _ h; simp [eraseFirst] at h
  | cons x xs ih =>
    intro hp
    rw [List.map_cons, List.pairwise_cons] at hp
    obtain ⟨hx, hxs⟩ := hp
    by_cases hb : (x.id == id) = true
    · have hxid : x.id = id := by simpa using hb
      rw [show eraseFirst (fun b => b.id == id) (x :: xs) = xs by
        simp [eraseFirst, hb]]
      intro hmem
      exact hx id hmem (hxid.symm ▸ rfl)
    · rw [show eraseFirst (fun b => b.id == id) (x :: xs)
          = x :: eraseFirst (fun b => b.id == id) xs by simp [eraseFirst, hb]]
      rw [List.map_cons]
      intro hmem
      rcases List.mem_cons.mp hmem with h | h
      · exact (by simpa using hb : ¬x.id = id) h.symm
      · exact ih hxs h

/-- Reduction of a successful `deleteBook`: the store it leaves behind. -/
theorem deleteBook_ok_store (s s' : Store) (id : Int)
    (hd : deleteBook s id = (s', Except.ok ())) :
    s' = ⟨eraseFirst (fun x => x.id == id) s.books⟩ := by
  unfold deleteBook at hd
  split at hd
  · simp at hd
  · have h2 := congrArg Prod.fst hd
    simpa using h2.symm

theorem mem_books_deleteBook (s : Store) (id' : Int) {b : Book}
    (h : b ∈ ((deleteBook s id').1).books) : b ∈ s.books := by
  unfold deleteBook at h
  split at h
  · exact h
  · exact (eraseFirst_sublist _ _).subset h

theorem mem_ids_runOps_create_free :
    ∀ (ops : List Op), (∀ op ∈ ops, op.isCreate = false) →
      ∀ (s : Store) (i : Int), i ∈ (runOps s ops).books.map Book.id →
        i ∈ s.books.map Book.id := by
  intro ops
  induction ops with
  | nil => intro _ s i h; exact h
  | cons op ops ih =>
    intro hco s i h
    have hop : op.isCreate = false := hco op (List.mem_cons_self _ _)
    have h2 : i ∈ (applyOp s op).books.map Book.id :=
      ih (fun o ho => hco o (List.mem_cons_of_mem _ ho)) _ i h
    cases op with
    | create c => simp [Op.isCreate] at hop
    | update id u =>
      rw [show (applyOp s (Op.update id u)).books.map Book.id
          = ((updateBook s id u).1).books.map Book.id from rfl,
        books_updateBook_map_id] at h2
      exact h2
    | delete id =>
      obtain ⟨b, hb, rfl⟩ := List.mem_map.mp h2
      exact List.mem_map_of_mem Book.id (mem_books_deleteBook s id hb)

theorem mem_applyTitleFilter {b : Book} (t? : Option String) (l : List Book)
    (h : b ∈ applyTitleFilter t? l) : b ∈ l := by
  cases t? with
  | none => exact h
  | some t =>
    by_cases ht : t = ""
    · simpa [applyTitleFilter, ht] using h
    · simp only [applyTitleFilter, if_neg ht] at h
      exact (List.mem_filter.mp h).1

theorem mem_applyAuthorFilter {b : Book} (a? : Option String) (l : List Book)
    (h : b ∈ applyAuthorFilter a? l) : b ∈ l := by
  cases a? with
  | none => exact h
  | some a =>
    by_cases ha : a = ""
    · simpa [applyAuthorFilter, ha] using h
    · simp only [applyAuthorFilter, if_neg ha] at h
      exact (List.mem_filter.mp h).1

theorem mem_applyYearFilter {b : Book} (y? : Option Int) (l : List Book)
    (h : b ∈ applyYearFilter y? l) : b ∈ l := by
  cases y? with
  | none => exact h
  | some y =>
    by_cases hy : y = 0
    · simpa [applyYearFilter, hy] using h
    · simp only [applyYearFilter, if_neg hy] at h
      exact (List.mem_filter.mp h).1

theorem mem_getBooks {b : Book} (s : Store) (skip limit : Nat)
    (h : b ∈ getBooks s skip limit) : b ∈ s.books :=
  (List.drop_sublist _ _).subset ((List.take_sublist _ _).subset h)

theorem mem_searchBooks {b : Book} (s : Store) (t a : Option String)
    (y : Option Int) (skip limit : Nat)
    (h : b ∈ searchBooks s t a y skip limit) : b ∈ s.books := by
  unfold searchBooks at h
  have h1 : b ∈ sortById (applyYearFilter y (applyAuthorFilter a
      (applyTitleFilter t s.books))) :=
    (List.drop_sublist _ _).subset ((List.take_sublist _ _).subset h)
  have h2 : b ∈ applyYearFilter y (applyAuthorFilter a
      (applyTitleFilter t s.books)) := by
    unfold sortById at h1
    exact (List.mem_insertionSort (fun x y => x.id ≤ y.id)).mp h1
  exact mem_applyTitleFilter _ _ (mem_applyAuthorFilter _ _
    (mem_applyYearFilter _ _ h2))

theorem any_congr {α : Type} {l : List α} {f g : α → Bool}
    (h : ∀ x ∈ l, f x = g x) : l.any f = l.any g := by
  induction l with
  | nil => rfl
  | cons x xs ih =>
    rw [List.any_cons, List.any_cons, h x (List.mem_cons_self _ _),
      ih (fun z hz => h z (List.mem_cons_of_mem _ hz))]

theorem tails_any_isEmpty : ∀ t : List Char,
    t.tails.any (fun x => x.isEmpty) = true := by
  intro t
  induction t with
  | nil => rfl
  | cons c t ih => rw [List.tails_cons, List.any_cons, ih, Bool.or_true]

/-- On a wildcard-free pattern, `LIKE pat || '%'` is exactly a check that
`pat` is a literal leading segment of the text. -/
theorem likeMatch_wf_append :
    ∀ (q : List Char), (∀ c ∈ q, c ≠ '%' ∧ c ≠ '_') →
      ∀ t, likeMatch (q ++ ['%']) t = q.isPrefixOf t := by
  intro q
  induction q with
  | nil =>
    intro _ t
    have e : likeMatch ['%'] t = t.tails.any (fun x => x.isEmpty) := by
      simp only [likeMatch]
      rw [if_pos trivial]
    rw [List.nil_append, e, tails_any_isEmpty, List.isPrefixOf_nil_left]
  | cons a q ih =>
    intro h t
    have ha1 : a ≠ '%' := (h a (List.mem_cons_self _ _)).1
    have ha2' : (a == '_') = false := by
      simpa using (h a (List.mem_cons_self _ _)).2
    have ih' := ih (fun c hc => h c (List.mem_cons_of_mem _ hc))
    cases t with
    | nil =>
      have e0 : likeMatch (a :: (q ++ ['%'])) [] = false := by
        simp only [likeMatch]
        rw [if_neg ha1]
      rw [List.cons_append, e0]
      rfl
    | cons c t' =>
      have e1 : likeMatch (a :: (q ++ ['%'])) (c :: t')
          = ((a == '_' || a == c) && likeMatch (q ++ ['%']) t') := by
        simp only [likeMatch]
        rw [if_neg ha1]
      rw [List.cons_append, e1, ha2', Bool.false_or, ih' t',
        List.isPrefixOf_cons₂]

/-- On a wildcard-free pattern the emitted SQL LIKE filter coincides with
the spec's case-insensitive substring match. -/
theorem sqlContains_eq_containsCI (f pat : String) (h : likeSafe pat = true) :
    sqlContains f pat = containsCI f pat := by
  unfold likeSafe at h
  have h' : ∀ c ∈ pat.data.map Char.toLower, c ≠ '%' ∧ c ≠ '_' := by
    intro c hc
    have hc2 := (List.all_eq_true.mp h) c hc
    constructor
    · intro hEq; subst hEq; simp at hc2
    · intro hEq; subst hEq; simp at hc2
  unfold sqlContains containsCI
  rw [show ('%' :: pat.data.map Char.toLower) ++ ['%']
      = '%' :: (pat.data.map Char.toLower ++ ['%']) from rfl]
  have e2 : likeMatch ('%' :: (pat.data.map Char.toLower ++ ['%']))
      (f.data.map Char.toLower)
      = (f.data.map Char.toLower).tails.any
        (fun t => likeMatch (pat.data.map Char.toLower ++ ['%']) t) := by
    simp only [likeMatch]
    rw [if_pos trivial]
  rw [e2]
  exact any_congr (fun t _ => likeMatch_wf_append _ h' t)

theorem tails_any_nilPrefixOf : ∀ l : List Char,
    l.tails.any (fun t => ([] : List Char).isPrefixOf t) = true := by
  intro l
  cases l with
  | nil => rfl
  | cons c t =>
    rw [List.tails_cons, List.any_cons]
    simp

/-- The empty pattern matches every field (so skipping the filter on an
empty string coincides with applying the spec's filter). -/
theorem containsCI_empty (f : String) : containsCI f "" = true := by
  show (f.data.map Char.toLower).tails.any
    (fun t => ((("" : String).data).map Char.toLower).isPrefixOf t) = true
  rw [show (("" : String).data).map Char.toLower = [] from rfl]
  exact tails_any_nilPrefixOf _

theorem applyTitleFilter_eq (t? : Option String) (l : List Book)
    (h : ∀ t, t? = some t → likeSafe t = true) :
    applyTitleFilter t? l = l.filter (titleMatchSpec t?) := by
  cases t? with
  | none =>
    show l = l.filter (titleMatchSpec none)
    calc l = l.filter (fun _ => true) := (List.filter_true l).symm
      _ = l.filter (titleMatchSpec none) :=
        List.filter_congr (fun b _ => rfl)
  | some t =>
    by_cases ht : t = ""
    · subst ht
      show l = l.filter (titleMatchSpec (some ""))
      calc l = l.filter (fun _ => true) := (List.filter_true l).symm
        _ = l.filter (titleMatchSpec (some "")) :=
          List.filter_congr (fun b _ => (containsCI_empty b.title).symm)
    · rw [show applyTitleFilter (some t) l
          = l.filter (fun b => sqlContains b.title t) by
        simp [applyTitleFilter, ht]]
      exact List.filter_congr (fun b _ => by
        rw [sqlContains_eq_containsCI b.title t (h t rfl)]
        rfl)

theorem applyAuthorFilter_eq (a? : Option String) (l : List Book)
    (h : ∀ a, a? = some a → likeSafe a = true) :
    applyAuthorFilter a? l = l.filter (authorMatchSpec a?) := by
  cases a? with
  | none =>
    show l = l.filter (authorMatchSpec none)
    calc l = l.filter (fun _ => true) := (List.filter_true l).symm
      _ = l.filter (authorMatchSpec none) :=
        List.filter_congr (fun b _ => rfl)
  | some a =>
    by_cases ha : a = ""
    · subst ha
      show l = l.filter (authorMatchSpec (some ""))
      calc l = l.filter (fun _ => true) := (List.filter_true l).symm
        _ = l.filter (authorMatchSpec (some "")) :=
          List.filter_congr (fun b _ => (containsCI_empty b.author).symm)
    · rw [show applyAuthorFilter (some a) l
          = l.filter (fun b => sqlContains b.author a) by
        simp [applyAuthorFilter, ha]]
      exact List.filter_congr (fun b _ => by
        rw [sqlContains_eq_containsCI b.author a (h a rfl)]
        rfl)

theorem applyYearFilter_eq (y? : Option Int) (l : List Book)
    (h : ∀ y, y? = some y → y ≠ 0) :
    applyYearFilter y? l = l.filter (yearMatchSpec y?) := by
  cases y? with
  | none =>
    show l = l.filter (yearMatchSpec none)
    calc l = l.filter (fun _ => true) := (List.filter_true l).symm
      _ = l.filter (yearMatchSpec none) :=
        List.filter_congr (fun b _ => rfl)
  | some y =>
    rw [show applyYearFilter (some y) l
        = l.filter (fun b => b.year == some y) by
      simp [applyYearFilter, h y rfl]]
    exact List.filter_congr (fun b _ => rfl)

/-! ## Claim theorems -/

/-- C2: a partial Update modifies exactly the fields present in the request;
every omitted field keeps its prior value, supplied fields take the supplied
value, and the id is never touched. -/
theorem update_partial_frame (s : Store) (id : Int) (u : BookUpdate)
    (s' : Store) (b b' : Book)
    (hf : s.books.find? (fun x => x.id == id) = some b)
    (h : updateBook s id u = (s', Except.ok b')) :
    (u.title = none → b'.title = b.title) ∧
    (∀ t, u.title = some (some t) → b'.title = t) ∧
    (u.author = none → b'.author = b.author) ∧
    (∀ a, u.author = some (some a) → b'.author = a) ∧
    (u.year = none → b'.year = b.year) ∧
    (∀ y, u.year = some y → b'.year = y) ∧
    b'.id = b.id := by
  by_cases hv : validUpdate u = true
  · by_cases hn : (u.title == some none || u.author == some none) = true
    · rw [updateBook_found_null s id u b hf hv hn] at h
      simp at h
    · have hn' : (u.title == some none || u.author == some none) = false := by
        simpa using hn
      rw [updateBook_found s id u b hf hv hn'] at h
      have hb' : b' = applyUpdate b u := by
        have h2 := congrArg Prod.snd h
        simpa using h2.symm
      subst hb'
      refine ⟨?_, ?_, ?_, ?_, ?_, ?_, rfl⟩
      · intro h1; simp [applyUpdate, h1]
      · intro t h1; simp [applyUpdate, h1]
      · intro h1; simp [applyUpdate, h1]
      · intro a h1; simp [applyUpdate, h1]
      · intro h1; simp [applyUpdate, h1]
      · intro y h1; simp [applyUpdate, h1]
  · unfold updateBook at h
    rw [if_neg hv] at h
    simp at h

/-- Witness for C2 at the spec's own example: Update(1, year := 1999) on
a record titled "Dune" by "Herbert" keeps title and author and sets the
year. -/
theorem update_partial_frame_witness :
    (⟨1, "Dune", "Herbert", some 1999⟩ : Book).title
      = (⟨1, "Dune", "Herbert", some 1965⟩ : Book).title ∧
    (⟨1, "Dune", "Herbert", some 1999⟩ : Book).author
      = (⟨1, "Dune", "Herbert", some 1965⟩ : Book).author ∧
    (⟨1, "Dune", "Herbert", some 1999⟩ : Book).year = some 1999 := by
  have h := update_partial_frame ⟨[⟨1, "Dune", "Herbert", some 1965⟩]⟩ 1
    ⟨none, none, some (some 1999)⟩ ⟨[⟨1, "Dune", "Herbert", some 1999⟩]⟩
    ⟨1, "Dune", "Herbert", some 1965⟩ ⟨1, "Dune", "Herbert", some 1999⟩ rfl rfl
  exact ⟨h.1 rfl, h.2.2.1 rfl, h.2.2.2.2.2.1 (some 1999) rfl⟩

/-- C3: Update on an id not in the store leaves the store entirely
unchanged, and (for a body that passes request validation, which runs
first) fails with NotFound. -/
theorem update_missing_id (s : Store) (id : Int) (u : BookUpdate)
    (h : ∀ b ∈ s.books, b.id ≠ id) :
    (updateBook s id u).1 = s ∧
    (validUpdate u = true →
      (updateBook s id u).2 = Except.error BookError.notFound) := by
  have hf : s.books.find? (fun b => b.id == id) = none := by
    rw [List.find?_eq_none]
    intro x hx
    simpa using h x hx
  unfold updateBook
  by_cases hv : validUpdate u = true
  · rw [if_pos hv, hf]
    exact ⟨rfl, fun _ => rfl⟩
  · rw [if_neg hv]
    exact ⟨rfl, fun hvv => absurd hvv hv⟩

/-- Witness for C3: updating id 7 in a store holding only id 1. -/
theorem update_missing_id_witness :
    (updateBook ⟨[⟨1, "Dune", "Herbert", some 1965⟩]⟩ 7
        ⟨none, none, some (some 1999)⟩).1
      = ⟨[⟨1, "Dune", "Herbert", some 1965⟩]⟩ ∧
    (updateBook ⟨[⟨1, "Dune", "Herbert", some 1965⟩]⟩ 7
        ⟨none, none, some (some 1999)⟩).2
      = Except.error BookError.notFound := by
  have h := update_missing_id ⟨[⟨1, "Dune", "Herbert", some 1965⟩]⟩ 7
    ⟨none, none, some (some 1999)⟩ (by decide)
  exact ⟨h.1, h.2 rfl⟩

/-- C4 (code bug): `BookCreate.title` is a plain `str` with no
`min_length`, so a Create whose title is the empty string passes transport
validation and inserts a record — the store grows by one — even though the
update model (`BookUpdate`, `min_length=1`) and the spec both require
titles to be non-empty.  This theorem evaluates the code at the failing
input. -/
theorem create_empty_title_inserts :
    createBook ⟨[⟨1, "Dune", "Herbert", some 1965⟩]⟩ ⟨"", "Smith", none⟩
      = (⟨[⟨1, "Dune", "Herbert", some 1965⟩, ⟨2, "", "Smith", none⟩]⟩,
         ⟨2, "", "Smith", none⟩) ∧
    (createBook ⟨[⟨1, "Dune", "Herbert", some 1965⟩]⟩
        ⟨"", "Smith", none⟩).1.books.length = 2 := by
  constructor
  · decide
  · decide

/-- C8: Create with a valid body followed by List with a limit larger than
the store returns the new Book, carrying exactly the requested field values
and an id distinct from every id already stored. -/
theorem create_then_list (s : Store) (c : BookCreate) (limit : Nat)
    (htitle : c.title ≠ "") (hauthor : c.author ≠ "")
    (hroom : s.books.length < limit) :
    (createBook s c).2 ∈ getBooks (createBook s c).1 0 limit ∧
    (createBook s c).2.title = c.title ∧
    (createBook s c).2.author = c.author ∧
    (createBook s c).2.year = c.year ∧
    ∀ b ∈ s.books, b.id ≠ (createBook s c).2.id := by
  refine ⟨?_, rfl, rfl, rfl, ?_⟩
  · show (createBook s c).2 ∈
      (((s.books ++ [(createBook s c).2]).drop 0).take limit)
    rw [List.drop_zero, List.take_of_length_le (by simp; omega)]
    exact List.mem_append_right _ (List.mem_cons_self _ _)
  · intro b hb hEq
    have hle : b.id ≤ maxId s.books := le_maxId hb
    have hid : (createBook s c).2.id = maxId s.books + 1 := rfl
    omega

/-- Witness for C8: creating "Dune" in a one-book store, listing with
limit 100. -/
theorem create_then_list_witness :
    (createBook ⟨[⟨1, "A", "B", none⟩]⟩ ⟨"Dune", "Herbert", some 1965⟩).2
      ∈ getBooks
        (createBook ⟨[⟨1, "A", "B", none⟩]⟩ ⟨"Dune", "Herbert", some 1965⟩).1
        0 100 ∧
    (createBook ⟨[⟨1, "A", "B", none⟩]⟩
        ⟨"Dune", "Herbert", some 1965⟩).2.title = "Dune" ∧
    (createBook ⟨[⟨1, "A", "B", none⟩]⟩
        ⟨"Dune", "Herbert", some 1965⟩).2.author = "Herbert" ∧
    (createBook ⟨[⟨1, "A", "B", none⟩]⟩
        ⟨"Dune", "Herbert", some 1965⟩).2.year = some 1965 ∧
    ∀ b ∈ (⟨[⟨1, "A", "B", none⟩]⟩ : Store).books,
      b.id ≠ (createBook ⟨[⟨1, "A", "B", none⟩]⟩
        ⟨"Dune", "Herbert", some 1965⟩).2.id :=
  create_then_list ⟨[⟨1, "A", "B", none⟩]⟩ ⟨"Dune", "Herbert", some 1965⟩ 100
    (by decide) (by decide) (by decide)

/-- C9 (amended): a supplied non-null title or author that is empty, or a
supplied non-null year outside [0, 2100], is rejected by request validation
with ValidationError before the store is touched. -/
theorem update_field_constraints (s : Store) (id : Int) (u : BookUpdate)
    (h : u.title = some (some "") ∨ u.author = some (some "") ∨
         (∃ y, u.year = some (some y) ∧ (y < 0 ∨ 2100 < y))) :
    updateBook s id u = (s, Except.error BookError.validation) := by
  have hv : validUpdate u = false := by
    rcases h with ht | ha | ⟨y, hy, hrange⟩
    · simp [validUpdate, ht]
    · simp [validUpdate, ha]
    · have hy' : (decide (0 ≤ y) && decide (y ≤ 2100)) = false := by
        rcases hrange with h1 | h1 <;> simp <;> omega
      simp [validUpdate, hy, hy']
  unfold updateBook
  rw [if_neg (by simp [hv])]

/-- Witness for C9: an update supplying an empty title is rejected. -/
theorem update_field_constraints_witness :
    updateBook ⟨[⟨1, "A", "B", none⟩]⟩ 1 ⟨some (some ""), none, none⟩
      = (⟨[⟨1, "A", "B", none⟩]⟩, Except.error BookError.validation) :=
  update_field_constraints ⟨[⟨1, "A", "B", none⟩]⟩ 1
    ⟨some (some ""), none, none⟩ (Or.inl rfl)

/-- C9 counterexample to the claim as stated: a request that supplies
`title` as explicit JSON null — a supplied value that is not a non-empty
string — is NOT rejected with ValidationError; pydantic accepts the null
(constraints skip `None`) and the request instead dies at commit on the
`NOT NULL` column constraint (an integrity error / HTTP 500). -/
theorem update_null_title_not_validation :
    (updateBook ⟨[⟨1, "Dune", "Herbert", some 1965⟩]⟩ 1
        ⟨some none, none, none⟩).2 = Except.error BookError.integrity ∧
    (updateBook ⟨[⟨1, "Dune", "Herbert", some 1965⟩]⟩ 1
        ⟨some none, none, none⟩).2 ≠ Except.error BookError.validation := by
  refine ⟨rfl, ?_⟩
  intro hc
  rw [show (updateBook ⟨[⟨1, "Dune", "Herbert", some 1965⟩]⟩ 1
      ⟨some none, none, none⟩).2 = Except.error BookError.integrity from rfl]
    at hc
  simp at hc

/-- C10: an Update supplying `year` as explicit null passes validation and
sets the stored year to null, while an Update omitting `year` preserves the
prior value — explicit null and absence are distinguished. -/
theorem update_null_year (s : Store) (id : Int) (b : Book)
    (hf : s.books.find? (fun x => x.id == id) = some b) :
    (updateBook s id ⟨none, none, some none⟩).2
      = Except.ok { b with year := none } ∧
    (updateBook s id ⟨none, none, none⟩).2 = Except.ok b := by
  have h1 := updateBook_found s id ⟨none, none, some none⟩ b hf rfl rfl
  have h2 := updateBook_found s id ⟨none, none, none⟩ b hf rfl rfl
  constructor
  · rw [h1]; rfl
  · rw [h2]; rfl

/-- C5: in every reachable store the stored ids are pairwise distinct, and
Update never changes any row's id (Create assigns the id — see
`createBook`, whose request body carries no id at all). -/
theorem reachable_unique_ids (s : Store) (h : Reachable s) :
    (s.books.map Book.id).Pairwise (· ≠ ·) ∧
    ∀ (id : Int) (u : BookUpdate),
      ((updateBook s id u).1).books.map Book.id = s.books.map Book.id :=
  ⟨(reachable_storeInv h).imp (fun hab => ne_of_lt hab),
   fun id u => books_updateBook_map_id s id u⟩

/-- Witness for C5 on the store reached by two Creates. -/
theorem reachable_unique_ids_witness :
    (((⟨[⟨1, "A", "B", none⟩, ⟨2, "C", "D", none⟩]⟩ : Store)).books.map
      Book.id).Pairwise (· ≠ ·) ∧
    ((updateBook ⟨[⟨1, "A", "B", none⟩, ⟨2, "C", "D", none⟩]⟩ 1
        ⟨none, none, some (some 2000)⟩).1).books.map Book.id
      = ((⟨[⟨1, "A", "B", none⟩, ⟨2, "C", "D", none⟩]⟩ : Store)).books.map
        Book.id := by
  have h := reachable_unique_ids ⟨[⟨1, "A", "B", none⟩, ⟨2, "C", "D", none⟩]⟩
    ⟨[Op.create ⟨"A", "B", none⟩, Op.create ⟨"C", "D", none⟩], rfl⟩
  exact ⟨h.1, h.2 1 ⟨none, none, some (some 2000)⟩⟩

/-- C6: on every reachable store, Search with no filters supplied returns
exactly the List result for the same skip/limit (the table is in id order,
so the extra `ORDER BY id` changes nothing). -/
theorem search_no_filters_eq_list (s : Store) (h : Reachable s)
    (skip limit : Nat) :
    searchBooks s none none none skip limit = getBooks s skip limit := by
  show ((sortById s.books).drop skip).take limit
    = (s.books.drop skip).take limit
  rw [sortById_eq_of_pairwise (reachable_storeInv h)]

/-- Witness for C6 on the store reached by two Creates, with skip 1,
limit 1. -/
theorem search_no_filters_eq_list_witness :
    searchBooks ⟨[⟨1, "A", "B", none⟩, ⟨2, "C", "D", none⟩]⟩
      none none none 1 1
      = getBooks ⟨[⟨1, "A", "B", none⟩, ⟨2, "C", "D", none⟩]⟩ 1 1 :=
  search_no_filters_eq_list ⟨[⟨1, "A", "B", none⟩, ⟨2, "C", "D", none⟩]⟩
    ⟨[Op.create ⟨"A", "B", none⟩, Op.create ⟨"C", "D", none⟩], rfl⟩ 1 1

/-- C7 counterexample to the claim as stated: ids can be reused.  Starting
from the empty store, Create twice (ids 1, 2), Delete id 2 (successfully),
then Create again: SQLite assigns rowid max+1 = 2 to the new row, so a
subsequent List DOES include a Book with the deleted id 2. -/
theorem delete_id_reused :
    (deleteBook (runOps ⟨[]⟩ [Op.create ⟨"A", "B", none⟩,
        Op.create ⟨"C", "D", none⟩]) 2).2 = Except.ok () ∧
    2 ∈ (getBooks (runOps ⟨[]⟩ [Op.create ⟨"A", "B", none⟩,
        Op.create ⟨"C", "D", none⟩, Op.delete 2,
        Op.create ⟨"E", "F", none⟩]) 0 100).map Book.id := by
  constructor
  · rfl
  · decide

/-- C7 (amended): after a successful Delete(id) on a reachable store, the
deleted id is gone, and as long as no further Create runs, no List or
Search result ever includes it and a repeated Delete(id) fails with
NotFound.  (A later Create may reuse the deleted id, which is the only
carve-out from the original claim.) -/
theorem delete_removes_id (s s' : Store) (id : Int)
    (hr : Reachable s)
    (hd : deleteBook s id = (s', Except.ok ())) :
    ∀ ops : List Op, (∀ op ∈ ops, op.isCreate = false) →
      (∀ skip limit, id ∉ (getBooks (runOps s' ops) skip limit).map Book.id) ∧
      (∀ t a y skip limit,
        id ∉ (searchBooks (runOps s' ops) t a y skip limit).map Book.id) ∧
      (deleteBook (runOps s' ops) id).2 = Except.error BookError.notFound := by
  have hinv : (s.books.map Book.id).Pairwise (· ≠ ·) :=
    (reachable_storeInv hr).imp (fun hab => ne_of_lt hab)
  have hs' : s' = ⟨eraseFirst (fun x => x.id == id) s.books⟩ :=
    deleteBook_ok_store s s' id hd
  have hid : id ∉ s'.books.map Book.id := by
    rw [hs']
    exact not_mem_map_id_eraseFirst id s.books hinv
  intro ops hops
  have hkey : id ∉ (runOps s' ops).books.map Book.id := by
    intro h
    exact hid (mem_ids_runOps_create_free ops hops s' id h)
  refine ⟨?_, ?_, ?_⟩
  · intro skip limit hmem
    obtain ⟨b, hb, rfl⟩ := List.mem_map.mp hmem
    exact hkey (List.mem_map_of_mem Book.id (mem_getBooks _ _ _ hb))
  · intro t a y skip limit hmem
    obtain ⟨b, hb, rfl⟩ := List.mem_map.mp hmem
    exact hkey (List.mem_map_of_mem Book.id (mem_searchBooks _ _ _ _ _ _ hb))
  · have hf : (runOps s' ops).books.find? (fun x => x.id == id) = none := by
      rw [List.find?_eq_none]
      intro x hx hxx
      exact hkey (by
        have : x.id = id := by simpa using hxx
        exact this ▸ List.mem_map_of_mem Book.id hx)
    unfold deleteBook
    rw [hf]

/-- Witness for C7: delete id 2 from the reachable two-book store, run no
further operations; id 2 is absent from List and Search and a second
delete 404s. -/
theorem delete_removes_id_witness :
    (2 : Int) ∉ (getBooks ⟨[⟨1, "A", "B", none⟩]⟩ 0 100).map Book.id ∧
    (2 : Int) ∉ (searchBooks ⟨[⟨1, "A", "B", none⟩]⟩ none none none 0
      100).map Book.id ∧
    (deleteBook ⟨[⟨1, "A", "B", none⟩]⟩ 2).2
      = Except.error BookError.notFound := by
  have h := delete_removes_id
    (runOps ⟨[]⟩ [Op.create ⟨"A", "B", none⟩, Op.create ⟨"C", "D", none⟩])
    ⟨[⟨1, "A", "B", none⟩]⟩ 2
    ⟨[Op.create ⟨"A", "B", none⟩, Op.create ⟨"C", "D", none⟩], rfl⟩
    rfl [] (by simp)
  exact ⟨h.1 0 100, h.2.1 none none none 0 100, h.2.2⟩

/-- C1 (amended): for every store whose title/author text is ASCII and
every Search request whose supplied year (if any) is nonzero and whose
supplied title/author patterns (if any) are ASCII and contain no LIKE
wildcard character, the result is exactly the stored Books satisfying the
conjunction of the supplied filters — title/author by case-insensitive
substring, year by exact equality, absent filters not applied — ordered
by id ascending and paginated by skip/limit.  (On ASCII data all the case
foldings the code pipeline applies coincide; outside it the code's
matching is not case-insensitive, so the claim is restricted.) -/
theorem search_refines_spec (s : Store) (title author : Option String)
    (year : Option Int) (skip limit : Nat)
    (ht : ∀ t, title = some t → likeSafe t = true ∧ asciiString t = true)
    (ha : ∀ a, author = some a → likeSafe a = true ∧ asciiString a = true)
    (hy : ∀ y, year = some y → y ≠ 0)
    (hb : ∀ b ∈ s.books, asciiString b.title = true ∧
      asciiString b.author = true) :
    searchBooks s title author year skip limit
      = specSearch s title author year skip limit := by
  unfold searchBooks specSearch
  have hq : applyYearFilter year (applyAuthorFilter author
      (applyTitleFilter title s.books))
      = s.books.filter (specMatches title author year) := by
    rw [applyTitleFilter_eq title s.books (fun t h2 => (ht t h2).1),
      applyAuthorFilter_eq author _ (fun a h2 => (ha a h2).1),
      applyYearFilter_eq year _ hy,
      List.filter_filter, List.filter_filter]
    exact List.filter_congr (fun b _ => by
      unfold specMatches
      cases titleMatchSpec title b <;> cases authorMatchSpec author b <;>
        cases yearMatchSpec year b <;> rfl)
  rw [hq]

/-- C1 counterexample to the claim as stated, at two concrete inputs.
First: the handler tests `if year:`, so a supplied year filter of 0 is
dropped (Python truthiness) and a book with year 1999 is returned where the
spec's exact-equality filter returns nothing.  Second: `contains` emits an
unescaped LIKE pattern, so a supplied title "%" matches every title instead
of only titles containing a literal percent sign. -/
theorem search_diverges_from_spec :
    searchBooks ⟨[⟨1, "A", "B", some 1999⟩]⟩ none none (some 0) 0 100
      ≠ specSearch ⟨[⟨1, "A", "B", some 1999⟩]⟩ none none (some 0) 0 100 ∧
    searchBooks ⟨[⟨1, "abc", "B", none⟩]⟩ (some "%") none none 0 100
      ≠ specSearch ⟨[⟨1, "abc", "B", none⟩]⟩ (some "%") none none 0 100 := by
  constructor
  · decide
  · decide

/-- Witness for C1 at the spec's own example: Search(title="dune") agrees
with the spec filter and returns exactly the Book titled "Dune Messiah",
not the one titled "Foundation". -/
theorem search_refines_spec_witness :
    searchBooks ⟨[⟨1, "Dune Messiah", "Frank Herbert", some 1969⟩,
        ⟨2, "Foundation", "Isaac Asimov", some 1951⟩]⟩
      (some "dune") none none 0 100
      = specSearch ⟨[⟨1, "Dune Messiah", "Frank Herbert", some 1969⟩,
        ⟨2, "Foundation", "Isaac Asimov", some 1951⟩]⟩
      (some "dune") none none 0 100 ∧
    searchBooks ⟨[⟨1, "Dune Messiah", "Frank Herbert", some 1969⟩,
        ⟨2, "Foundation", "Isaac Asimov", some 1951⟩]⟩
      (some "dune") none none 0 100
      = [⟨1, "Dune Messiah", "Frank Herbert", some 1969⟩] := by
  refine ⟨search_refines_spec _ _ _ _ _ _ ?_ ?_ ?_ ?_, by decide⟩
  · intro t h2
    injection h2 with h3
    rw [← h3]
    exact ⟨by decide, by decide⟩
  · intro a h2
    exact Option.noConfusion h2
  · intro y h2
    exact Option.noConfusion h2
  · decide

/-- Witness for C10 on a concrete one-book store. -/
theorem update_null_year_witness :
    (updateBook ⟨[⟨1, "Dune", "Herbert", some 1965⟩]⟩ 1
        ⟨none, none, some none⟩).2
      = Except.ok ⟨1, "Dune", "Herbert", none⟩ ∧
    (updateBook ⟨[⟨1, "Dune", "Herbert", some 1965⟩]⟩ 1
        ⟨none, none, none⟩).2
      = Except.ok ⟨1, "Dune", "Herbert", some 1965⟩ :=
  update_null_year ⟨[⟨1, "Dune", "Herbert", some 1965⟩]⟩ 1
    ⟨1, "Dune", "Herbert", some 1965⟩ rfl

end BookApi
